import Mathlib

set_option maxRecDepth 100000

/-!
Shallow embedding of the sih_ayurveda backend (Express routes for herb-batch
provenance) and of its ledger client, together with theorems settling the
specification claims about stage recording, dual-source verification, the
metadata hash utility, the ledger client's big-integer conversion, and the
PDF-analysis endpoint.
-/

/-- JavaScript values as they appear in request bodies and stored rows:
`undefined`, `null`, booleans, (integer) numbers, strings, arrays, objects. -/
inductive JsVal where
  | undefined : JsVal
  | null : JsVal
  | bool : Bool → JsVal
  | num : Int → JsVal
  | str : String → JsVal
  | arr : List JsVal → JsVal
  | obj : List (String × JsVal) → JsVal
deriving Inhabited

/-- JavaScript truthiness on our value model (`!x` in the source negates this). -/
def jsTruthy : JsVal → Bool
  | .undefined => false
  | .null => false
  | .bool b => b
  | .num n => n != 0
  | .str s => s ≠ ""
  | .arr _ => true
  | .obj _ => true

/-- Render a natural number below 16 as a lowercase hexadecimal digit. -/
def hexDigit (n : Nat) : Char :=
  if n < 10 then Char.ofNat (48 + n) else Char.ofNat (87 + n)

/-- Four-digit hexadecimal rendering, used for JSON control-character escapes. -/
def hex4 (n : Nat) : String :=
  String.mk [hexDigit (n / 4096 % 16), hexDigit (n / 256 % 16),
             hexDigit (n / 16 % 16), hexDigit (n % 16)]

/-- Escape one character the way `JSON.stringify` escapes string contents. -/
def escapeJsonChar (c : Char) : String :=
  if c = '\x22' then "\\\x22"
  else if c = '\\' then "\\\\"
  else if c = '\n' then "\\n"
  else if c = '\r' then "\\r"
  else if c = '\t' then "\\t"
  else if c.toNat = 8 then "\\b"
  else if c.toNat = 12 then "\\f"
  else if c.toNat < 32 then "\\u" ++ hex4 c.toNat
  else String.singleton c

/-- A JSON string literal as `JSON.stringify` produces it. -/
def quoteJson (s : String) : String :=
  "\x22" ++ String.join (s.toList.map escapeJsonChar) ++ "\x22"

mutual
/-- `JSON.stringify` on our value model: `undefined` at the top level yields
no string (JavaScript returns `undefined`), which is why the hash utility
throws on it. -/
def stringifyVal : JsVal → Option String
  | .undefined => none
  | .null => some "null"
  | .bool true => some "true"
  | .bool false => some "false"
  | .num n => some (toString n)
  | .str s => some (quoteJson s)
  | .arr xs => some ("[" ++ String.intercalate "," (stringifyElems xs) ++ "]")
  | .obj fs => some ("\x7b" ++ String.intercalate "," (stringifyFields fs) ++ "\x7d")

/-- Array elements: `undefined` inside an array serializes as `null`. -/
def stringifyElems : List JsVal → List String
  | [] => []
  | x :: xs => ((stringifyVal x).getD "null") :: stringifyElems xs

/-- Object fields: fields whose value is `undefined` are omitted. -/
def stringifyFields : List (String × JsVal) → List String
  | [] => []
  | (k, v) :: fs =>
    match stringifyVal v with
    | none => stringifyFields fs
    | some sv => (quoteJson k ++ ":" ++ sv) :: stringifyFields fs
end

/-- UTF-8 encoding of a single code point (Node hashes the UTF-8 bytes). -/
def utf8Encode (c : Nat) : List Nat :=
  if c < 128 then [c]
  else if c < 2048 then [192 + c / 64, 128 + c % 64]
  else if c < 65536 then [224 + c / 4096, 128 + (c / 64) % 64, 128 + c % 64]
  else [240 + c / 262144, 128 + (c / 4096) % 64, 128 + (c / 64) % 64, 128 + c % 64]

/-- The UTF-8 byte sequence of a string. -/
def strToBytes (s : String) : List Nat :=
  (s.toList.map (fun c => utf8Encode c.toNat)).flatten

/-! ### SHA-256 (FIPS 180-4), over natural numbers reduced mod 2^32 -/

/-- 2^32, the word modulus of SHA-256 arithmetic. -/
def w32 : Nat := 4294967296

/-- 32-bit right rotation. -/
def rotr32 (n x : Nat) : Nat := ((x >>> n) ||| (x <<< (32 - n))) % w32

/-- SHA-256 Ch function. -/
def shaCh (x y z : Nat) : Nat := (x &&& y) ^^^ ((x ^^^ 4294967295) &&& z)

/-- SHA-256 Maj function. -/
def shaMaj (x y z : Nat) : Nat := (x &&& y) ^^^ (x &&& z) ^^^ (y &&& z)

/-- SHA-256 Σ0. -/
def bigSigma0 (x : Nat) : Nat := rotr32 2 x ^^^ rotr32 13 x ^^^ rotr32 22 x

/-- SHA-256 Σ1. -/
def bigSigma1 (x : Nat) : Nat := rotr32 6 x ^^^ rotr32 11 x ^^^ rotr32 25 x

/-- SHA-256 σ0. -/
def smallSigma0 (x : Nat) : Nat := rotr32 7 x ^^^ rotr32 18 x ^^^ (x >>> 3)

/-- SHA-256 σ1. -/
def smallSigma1 (x : Nat) : Nat := rotr32 17 x ^^^ rotr32 19 x ^^^ (x >>> 10)

/-- The 64 SHA-256 round constants. -/
def K64 : List Nat :=
  [1116352408, 1899447441, 3049323471, 3921009573, 961987163, 1508970993,
   2453635748, 2870763221, 3624381080, 310598401, 607225278, 1426881987,
   1925078388, 2162078206, 2614888103, 3248222580, 3835390401, 4022224774,
   264347078, 604807628, 770255983, 1249150122, 1555081692, 1996064986,
   2554220882, 2821834349, 2952996808, 3210313671, 3336571891, 3584528711,
   113926993, 338241895, 666307205, 773529912, 1294757372, 1396182291,
   1695183700, 1986661051, 2177026350, 2456956037, 2730485921, 2820302411,
   3259730800, 3345764771, 3516065817, 3600352804, 4094571909, 275423344,
   430227734, 506948616, 659060556, 883997877, 958139571, 1322822218,
   1537002063, 1747873779, 1955562222, 2024104815, 2227730452, 2361852424,
   2428436474, 2756734187, 3204031479, 3329325298]

/-- The SHA-256 initial hash value, as an 8-tuple of 32-bit words. -/
structure Hash8 where
  a : Nat
  b : Nat
  c : Nat
  d : Nat
  e : Nat
  f : Nat
  g : Nat
  h : Nat
deriving Repr, DecidableEq

/-- Initial SHA-256 state H(0). -/
def initHash : Hash8 :=
  ⟨1779033703, 3144134277, 1013904242, 2773480762,
   1359893119, 2600822924, 528734635, 1541459225⟩

/-- A number as `k` big-endian bytes. -/
def toBytesBE : Nat → Nat → List Nat
  | 0, _ => []
  | k + 1, n => toBytesBE k (n / 256) ++ [n % 256]

/-- SHA-256 message padding: append 0x80, zero bytes, and the 64-bit
big-endian bit length, to a multiple of 64 bytes. -/
def padMessage (msg : List Nat) : List Nat :=
  msg ++ [128] ++ List.replicate ((55 + 64 - msg.length % 64) % 64) 0
      ++ toBytesBE 8 (8 * msg.length)

/-- Accumulate bytes (current block kept reversed) and emit 64-byte blocks. -/
def toBlocksAux : List Nat → List Nat → List (List Nat)
  | acc, [] => if acc.isEmpty then [] else [acc.reverse]
  | acc, b :: bs =>
    if (b :: acc).length = 64 then (b :: acc).reverse :: toBlocksAux [] bs
    else toBlocksAux (b :: acc) bs

/-- Split a byte list into 64-byte blocks. -/
def toBlocks (bytes : List Nat) : List (List Nat) := toBlocksAux [] bytes

/-- Group bytes into 32-bit big-endian words. -/
def bytesToWords : List Nat → List Nat
  | a :: b :: c :: d :: rest =>
      (((a * 256 + b) * 256 + c) * 256 + d) :: bytesToWords rest
  | _ => []

/-- Extend the 16-word message schedule to 64 words; the accumulator holds the
schedule in reverse (newest word first), so W(i-2) is at index 1, W(i-7) at 6,
W(i-15) at 14, and W(i-16) at 15. -/
def extendSchedule : Nat → List Nat → List Nat
  | 0, w => w
  | k + 1, w =>
    let wi := (smallSigma1 (w.getD 1 0) + w.getD 6 0
               + smallSigma0 (w.getD 14 0) + w.getD 15 0) % w32
    extendSchedule k (wi :: w)

/-- One SHA-256 compression round. -/
def compressRound (st : Hash8) (kw : Nat × Nat) : Hash8 :=
  let t1 := (st.h + bigSigma1 st.e + shaCh st.e st.f st.g + kw.1 + kw.2) % w32
  let t2 := (bigSigma0 st.a + shaMaj st.a st.b st.c) % w32
  ⟨(t1 + t2) % w32, st.a, st.b, st.c, (st.d + t1) % w32, st.e, st.f, st.g⟩

/-- Process one 64-byte block: run 64 rounds and add into the chaining value. -/
def processBlock (hv : Hash8) (block : List Nat) : Hash8 :=
  let sched := (extendSchedule 48 (bytesToWords block).reverse).reverse
  let st := (K64.zip sched).foldl compressRound hv
  ⟨(hv.a + st.a) % w32, (hv.b + st.b) % w32, (hv.c + st.c) % w32,
   (hv.d + st.d) % w32, (hv.e + st.e) % w32, (hv.f + st.f) % w32,
   (hv.g + st.g) % w32, (hv.h + st.h) % w32⟩

/-- SHA-256 digest of a byte list, as 32 bytes. -/
def sha256 (msg : List Nat) : List Nat :=
  let hv := (toBlocks (padMessage msg)).foldl processBlock initHash
  toBytesBE 4 hv.a ++ toBytesBE 4 hv.b ++ toBytesBE 4 hv.c ++ toBytesBE 4 hv.d
    ++ toBytesBE 4 hv.e ++ toBytesBE 4 hv.f ++ toBytesBE 4 hv.g ++ toBytesBE 4 hv.h

/-- One byte as two lowercase hex digits. -/
def byteToHex (b : Nat) : String := String.mk [hexDigit (b / 16 % 16), hexDigit (b % 16)]

/-- Lowercase hexadecimal rendering of a byte list (Node's `digest('hex')`). -/
def bytesToHex (bs : List Nat) : String := String.join (bs.map byteToHex)

/-- SHA-256 hex digest of a string's UTF-8 bytes. -/
def sha256Hex (s : String) : String := bytesToHex (sha256 (strToBytes s))

/-! ### The hash utility (`createBatchHash` in batchRoute.js) -/

/-- The Node `TypeError` message raised by `hash.update(undefined)`. -/
def updateTypeErrorMsg : String :=
  "The \x22data\x22 argument must be of type string or an instance of Buffer, TypedArray, or DataView. Received undefined"

/-- `createBatchHash(metadata)`: SHA-256 hex digest of `JSON.stringify(metadata)`.
When the metadata is `undefined`, `JSON.stringify` yields `undefined` and
`hash.update(undefined)` throws a `TypeError`, modelled as the error case. -/
def createBatchHash (metadata : JsVal) : Except String String :=
  match stringifyVal metadata with
  | none => .error updateTypeErrorMsg
  | some s => .ok (sha256Hex s)

/-! ### The ledger client (`herbProvenance.js`) -/

/-- A value handed out by the ledger client: either a JavaScript string or a
ledger-native big integer (a JavaScript `BigInt`, as ethers returns for every
Solidity integer). -/
inductive EthVal where
  | str : String → EthVal
  | bigint : Int → EthVal
deriving DecidableEq, Repr, Inhabited

/-- Whether a ledger-client value is a string. -/
def EthVal.isString : EthVal → Bool
  | .str _ => true
  | .bigint _ => false

/-- One stage struct of the raw `getBatchSummary` contract result:
`stageType` and `timestamp` arrive as ledger-native big integers,
`metadataHash` as a string. -/
structure RawSummaryStage where
  stageType : Int
  timestamp : Int
  metadataHash : String
deriving DecidableEq, Repr

/-- The raw contract result tuple `[sku, stageCount, stages[]]`. -/
structure RawSummary where
  sku : String
  stageCount : Int
  stages : List RawSummaryStage
deriving DecidableEq, Repr

/-- One stage as the ledger client returns it to its consumers. -/
structure SummaryStage where
  stageType : EthVal
  timestamp : EthVal
  metadataHash : EthVal
deriving DecidableEq, Repr

/-- The ledger client's `getBatchSummary` return value. -/
structure BatchSummaryResult where
  sku : EthVal
  stageCount : EthVal
  stages : List SummaryStage
deriving DecidableEq, Repr

/-- `getBatchSummary`: maps the raw contract result; `stageCount.toString()`
and `stage.timestamp.toString()` are converted to decimal strings, while
`stageType: stage.stageType` is passed through unconverted. -/
def getBatchSummary (result : RawSummary) : BatchSummaryResult :=
  { sku := .str result.sku,
    stageCount := .str (toString result.stageCount),
    stages := result.stages.map (fun stage =>
      { stageType := .bigint stage.stageType,
        timestamp := .str (toString stage.timestamp),
        metadataHash := .str stage.metadataHash }) }

/-! ### Batch-stages verification (`GET /batch-stages/:formatted_batch_id`) -/

/-- A stage row fetched from the `stage_events` table. -/
structure SupabaseStage where
  batch_id : JsVal
  event_type : Int
  event_data : JsVal
  created_at : String
  event_hash : String

/-- An on-chain stage as the route receives it from the ledger client:
`stageType` is the ledger-native big integer (its numeric value; the route
applies `parseInt` to it), the other two fields are strings. -/
structure OnChainStage where
  stageType : Int
  timestamp : String
  metadataHash : String
deriving DecidableEq, Repr

/-- The on-chain stage after the route's BigInt-to-string JSON round-trip
(`JSON.parse(JSON.stringify(onChainStage, replacer))`). -/
structure SafeOnChainStage where
  stageType : String
  timestamp : String
  metadataHash : String
deriving DecidableEq, Repr

/-- The route's replacer-based conversion of one on-chain stage. -/
def toSafeOnChainStage (s : OnChainStage) : SafeOnChainStage :=
  ⟨toString s.stageType, s.timestamp, s.metadataHash⟩

/-- One element of the `stages` array in the route's response. -/
structure VerifiedStage where
  stage_type : Int
  metadata : JsVal
  timestamp : String
  data_integrity : Bool
  on_chain_verified : Bool
  verified : Bool
  on_chain_data : Option SafeOnChainStage

/-- `processStage` from the batch-stages route: recompute the metadata hash,
compare with the stored `event_hash`, and only when they agree look up the
first on-chain stage of the same stage type and compare its `metadataHash`.
Fails (rejecting the whole `Promise.all`) only if `createBatchHash` throws. -/
def processStage (onChainStages : List OnChainStage) (supabaseStage : SupabaseStage) :
    Except String VerifiedStage :=
  match createBatchHash supabaseStage.event_data with
  | .error e => .error e
  | .ok currentDataHash =>
    let isDataValid := currentDataHash == supabaseStage.event_hash
    let found := if isDataValid then
        onChainStages.find? (fun stage => stage.stageType == supabaseStage.event_type)
      else none
    let safeOnChainStage := found.map toSafeOnChainStage
    let onChainVerification :=
      if isDataValid then
        match safeOnChainStage with
        | some stage => stage.metadataHash == supabaseStage.event_hash
        | none => false
      else false
    .ok { stage_type := supabaseStage.event_type,
          metadata := supabaseStage.event_data,
          timestamp := supabaseStage.created_at,
          data_integrity := isDataValid,
          on_chain_verified := onChainVerification,
          verified := isDataValid && onChainVerification,
          on_chain_data := safeOnChainStage }

/-- The batch-level status: `FULLY_VERIFIED` when the list is non-empty and
every stage is verified, else `PARTIALLY_VERIFIED` when some stage is
verified, else `NOT_VERIFIED`. -/
def verificationStatus (stages : List VerifiedStage) : String :=
  if stages.length > 0 && stages.all (fun stage => stage.verified) then "FULLY_VERIFIED"
  else if stages.any (fun stage => stage.verified) then "PARTIALLY_VERIFIED"
  else "NOT_VERIFIED"

/-- The `summary` object of the batch-stages response. -/
structure StagesSummary where
  total_stages : Nat
  verified_stages : Nat
  verification_status : String
deriving DecidableEq, Repr

/-- `Promise.all` over fallible per-element computations: the list of results
when every element succeeds, otherwise the first failure. -/
def mapExcept {α β ε : Type} (f : α → Except ε β) : List α → Except ε (List β)
  | [] => .ok []
  | x :: xs =>
    match f x with
    | .error e => .error e
    | .ok y =>
      match mapExcept f xs with
      | .error e => .error e
      | .ok ys => .ok (y :: ys)

/-- The batch-stages route's possible responses: 400, 500, or 200 with the
batch id, the processed stage list, and the summary. -/
inductive BatchStagesResponse where
  | badRequest : String → BatchStagesResponse
  | serverError : String → String → BatchStagesResponse
  | ok : String → List VerifiedStage → StagesSummary → BatchStagesResponse

/-- The `GET /batch-stages/:formatted_batch_id` handler. The Supabase query
and the ledger fetch are the route's two external calls, passed in as their
results; a ledger failure is caught and leaves `onChainStages` empty, while a
Supabase failure (or a `processStage` rejection) becomes a 500. -/
def getBatchStagesRoute (formatted_batch_id : String)
    (supabaseRes : Except String (List SupabaseStage))
    (ledgerRes : Except String (List OnChainStage)) : BatchStagesResponse :=
  if formatted_batch_id = "" then .badRequest "formatted_batch_id is required"
  else
    match supabaseRes with
    | .error e => .serverError e "Failed to fetch batch stages"
    | .ok supabaseStages =>
      let onChainStages := match ledgerRes with
        | .ok stages => stages
        | .error _ => []
      match mapExcept (processStage onChainStages) supabaseStages with
      | .error e => .serverError e "Failed to fetch batch stages"
      | .ok verifiedStages =>
        .ok formatted_batch_id verifiedStages
          { total_stages := verifiedStages.length,
            verified_stages := (verifiedStages.filter (fun stage => stage.verified)).length,
            verification_status := verificationStatus verifiedStages }

/-! ### Stage recording (`POST /add-stage-event`) -/

mutual
/-- JavaScript `String()` coercion, as property-key coercion applies it:
arrays join their coerced elements with commas, plain objects render as
`[object Object]`. -/
def jsToPropertyKey : JsVal → String
  | .undefined => "undefined"
  | .null => "null"
  | .bool true => "true"
  | .bool false => "false"
  | .num n => toString n
  | .str s => s
  | .arr xs => String.intercalate "," (arrayElemStrings xs)
  | .obj _ => "[object Object]"

/-- Array elements under `Array.prototype.join`: `null` and `undefined`
coerce to the empty string, everything else to its `String()` form. -/
def arrayElemStrings : List JsVal → List String
  | [] => []
  | .undefined :: xs => "" :: arrayElemStrings xs
  | .null :: xs => "" :: arrayElemStrings xs
  | x :: xs => jsToPropertyKey x :: arrayElemStrings xs
end

/-- The enumerable members of `Object.prototype`: a property lookup on a
plain object literal falls through to these, yielding a function (or the
prototype object itself) rather than `undefined`. -/
def objectProtoProps : List String :=
  ["constructor", "hasOwnProperty", "isPrototypeOf", "propertyIsEnumerable",
   "toLocaleString", "toString", "valueOf", "__defineGetter__",
   "__defineSetter__", "__lookupGetter__", "__lookupSetter__", "__proto__"]

/-- What `event_stages[stage_type]` can evaluate to when it is not
`undefined`: one of the three own enumeration values, or a member inherited
from `Object.prototype`. -/
inductive PropValue where
  | num : Int → PropValue
  | protoFn : String → PropValue
deriving DecidableEq, Repr

/-- The JavaScript object lookup `event_stages[stage_type]` on the literal
`{CollectionEvent: 0, QualityTest: 1, ProcessingStep: 2}`: the key is
string-coerced and, when it is not an own key, the prototype chain is
consulted; only a key found nowhere yields `undefined` (`none`). -/
def event_stages (stage_type : JsVal) : Option PropValue :=
  let key := jsToPropertyKey stage_type
  if key = "CollectionEvent" then some (.num 0)
  else if key = "QualityTest" then some (.num 1)
  else if key = "ProcessingStep" then some (.num 2)
  else if key ∈ objectProtoProps then some (.protoFn key)
  else none

/-- The row inserted into the `stage_events` table; `event_type` holds
whatever `event_stages[stage_type]` evaluated to. -/
structure StoredRow where
  batch_id : JsVal
  event_type : PropValue
  event_data : JsVal
  event_hash : String

/-- A looked-up property value as JSON serialization sees it: numbers stay
numbers, inherited functions serialize as `undefined` (dropped fields). -/
def propToJs : PropValue → JsVal
  | .num n => .num n
  | .protoFn _ => .undefined

/-- The JSON object for a stored row as it appears in the 201 response body. -/
def rowToJs (r : StoredRow) : JsVal :=
  .obj [("batch_id", r.batch_id), ("event_type", propToJs r.event_type),
        ("event_data", r.event_data), ("event_hash", .str r.event_hash)]

/-- The ledger client's `addStage` success value. -/
structure TxResult where
  txHash : String
  stageIndex : String
deriving DecidableEq, Repr

/-- Externally visible actions of the add-stage-event handler, in program
order: a Supabase insert, a response attempt (Express delivers only the first
one to the caller), a successful on-chain `addStage`, or a logged error. -/
inductive Effect where
  | storeInsert : StoredRow → Effect
  | respond : Nat → JsVal → Effect
  | ledgerStage : JsVal → PropValue → String → Effect
  | logError : String → Effect

/-- Whether an effect is a response attempt. -/
def isRespondEffect : Effect → Bool
  | .respond _ _ => true
  | _ => false

/-- The response the caller sees: the first response attempt in the trace
(Express cannot re-send headers once a response has gone out). -/
def callerResponse (effects : List Effect) : Option Effect :=
  effects.find? isRespondEffect

/-- Whether an effect is a store insert. -/
def isStoreInsert : Effect → Bool
  | .storeInsert _ => true
  | _ => false

/-- Whether an effect is a successful on-chain stage append. -/
def isLedgerStage : Effect → Bool
  | .ledgerStage _ _ _ => true
  | _ => false

/-- The row the handler inserts: `event_data: metadata || {}`. -/
def insertedRow (formatted_batch_id : JsVal) (etype : PropValue) (metadata : JsVal)
    (batchHash : String) : StoredRow :=
  ⟨formatted_batch_id, etype,
   (if jsTruthy metadata then metadata else .obj []), batchHash⟩

/-- The 201 response body `{message, data, batchHash}`. -/
def successBody (row : StoredRow) (batchHash : String) : JsVal :=
  .obj [("message", .str "Stage event recorded successfully"),
        ("data", rowToJs row),
        ("batchHash", .str batchHash)]

/-- The `POST /add-stage-event` handler as its trace of effects. It validates
the stage type, then the batch id, computes the metadata hash (which throws
on omitted metadata), inserts the row, responds 201, and only then attempts
the on-chain mirror; a mirror failure lands in the catch block, which logs
and attempts a 500 that the caller never sees. The store insert and the
ledger call are the handler's external calls, passed in as their results. -/
def addStageEventRoute (formatted_batch_id stage_type metadata : JsVal)
    (insertRes : Except String Unit) (ledgerRes : Except String TxResult) :
    List Effect :=
  match event_stages stage_type with
  | none => [.respond 400 (.obj [("error", .str "Invalid stage type")])]
  | some etype =>
    if !(jsTruthy formatted_batch_id) then
      [.respond 400 (.obj [("error", .str "batch_id and stage_type are required")])]
    else
      match createBatchHash metadata with
      | .error msg => [.respond 500 (.obj [("error", .str msg)])]
      | .ok batchHash =>
        let row : StoredRow := insertedRow formatted_batch_id etype metadata batchHash
        match insertRes with
        | .error msg => [.respond 500 (.obj [("error", .str msg)])]
        | .ok _ =>
          .storeInsert row ::
          .respond 201 (successBody row batchHash) ::
          match ledgerRes with
          | .ok _ => [.ledgerStage formatted_batch_id etype batchHash]
          | .error msg => [.logError msg, .respond 500 (.obj [("error", .str msg)])]

/-! ### PDF analysis (`POST /api/ai/analyse-pdf`) -/

/-- SHA-256 hex digest of the serialization of the empty object. -/
def emptyObjHash : String :=
  "44136fa355b3678a1146ad16f7e8649e94fb4fc21fe77e8310c060f61caaff8a"

/-- SHA-256 hex digest of the serialization of the moisture-12 object. -/
def moistureHash : String :=
  "d72b28067d442c4176c85c9940a52c2ee44893075bfb7a31f147e829783cbe4c"

/-- A stored stage row whose hash no longer matches its metadata. -/
def tamperedRow : SupabaseStage := ⟨.str "1", 0, .obj [], "t0", "deadbeef"⟩

/-- A ledger entry carrying exactly the tampered row's stored hash. -/
def chainA : OnChainStage := ⟨0, "111", "deadbeef"⟩

/-- A stored stage row whose metadata still matches its hash. -/
def goodRow : SupabaseStage := ⟨.str "1", 0, .obj [], "t0", emptyObjHash⟩

/-- First on-chain stage of kind 0, holding a different hash. -/
def chainFirst : OnChainStage := ⟨0, "100", "aaaa"⟩

/-- Second on-chain stage of kind 0, holding exactly the stored hash. -/
def chainSecond : OnChainStage := ⟨0, "200", emptyObjHash⟩

/-- The verification detail `processStage` produces for `goodRow` against the
two same-kind ledger entries: matched with the first entry, hence unverified. -/
def firstOfKindDetail : VerifiedStage :=
  ⟨0, .obj [], "t0", true, false, false, some ⟨"0", "100", "aaaa"⟩⟩

/-- A concrete raw `getBatchSummary` contract result with one stage. -/
def rawSummaryEx : RawSummary := ⟨"ASHWAGANDHA", 1, [⟨1, 1700000000, "abc123"⟩]⟩

/-! ### Helper lemmas -/

/-- When the recomputed hash disagrees with the stored one, `processStage`
returns the all-false detail without consulting the ledger list. -/
theorem processStage_invalid (l : List OnChainStage) (s : SupabaseStage) (h : String)
    (hcb : createBatchHash s.event_data = .ok h)
    (hne : (h == s.event_hash) = false) :
    processStage l s
      = .ok ⟨s.event_type, s.event_data, s.created_at, false, false, false, none⟩ := by
  simp [processStage, hcb, hne]

/-- When the recomputed hash agrees with the stored one, `processStage`
compares against the first same-kind ledger entry. -/
theorem processStage_valid (l : List OnChainStage) (s : SupabaseStage)
    (hcb : createBatchHash s.event_data = .ok s.event_hash) :
    processStage l s = .ok ⟨s.event_type, s.event_data, s.created_at, true,
      (match (l.find? (fun stage => stage.stageType == s.event_type)).map toSafeOnChainStage with
       | some stage => stage.metadataHash == s.event_hash
       | none => false),
      (match (l.find? (fun stage => stage.stageType == s.event_type)).map toSafeOnChainStage with
       | some stage => stage.metadataHash == s.event_hash
       | none => false),
      (l.find? (fun stage => stage.stageType == s.event_type)).map toSafeOnChainStage⟩ := by
  simp [processStage, hcb]

/-- `processStage` succeeds whenever the row's metadata is serializable. -/
theorem processStage_ok_of_serializable (l : List OnChainStage) (s : SupabaseStage)
    (hgood : stringifyVal s.event_data ≠ none) :
    ∃ v, processStage l s = .ok v := by
  cases hst : stringifyVal s.event_data with
  | none => exact absurd hst hgood
  | some txt =>
    have hcb : createBatchHash s.event_data = .ok (sha256Hex txt) := by
      simp [createBatchHash, hst]
    simp only [processStage, hcb]
    exact ⟨_, rfl⟩

/-- Against an empty ledger list no stage can be on-chain verified. -/
theorem processStage_nil_onchain (s : SupabaseStage) (v : VerifiedStage)
    (hok : processStage [] s = .ok v) :
    v.on_chain_verified = false ∧ v.verified = false := by
  cases hcb : createBatchHash s.event_data with
  | error e => simp [processStage, hcb] at hok
  | ok h =>
    cases hbeq : (h == s.event_hash) with
    | false =>
      rw [processStage_invalid [] s h hcb hbeq] at hok
      injection hok with hv
      subst hv
      exact ⟨rfl, rfl⟩
    | true =>
      have hcb2 : createBatchHash s.event_data = .ok s.event_hash := by
        rw [hcb, beq_iff_eq.mp hbeq]
      rw [processStage_valid [] s hcb2] at hok
      injection hok with hv
      subst hv
      exact ⟨rfl, rfl⟩

/-- Every element of a successful `mapExcept` run comes from some input. -/
theorem mapExcept_ok_mem {α β ε : Type} {f : α → Except ε β} {xs : List α} {ys : List β}
    (h : mapExcept f xs = .ok ys) : ∀ y ∈ ys, ∃ x ∈ xs, f x = .ok y := by
  induction xs generalizing ys with
  | nil =>
    simp only [mapExcept] at h
    injection h with h
    subst h
    intro y hy
    simp at hy
  | cons a as ih =>
    simp only [mapExcept] at h
    cases hfa : f a with
    | error e => rw [hfa] at h; simp at h
    | ok b =>
      rw [hfa] at h
      cases hrest : mapExcept f as with
      | error e => rw [hrest] at h; simp at h
      | ok bs =>
        rw [hrest] at h
        injection h with h
        subst h
        intro y hy
        rcases List.mem_cons.mp hy with h1 | h2
        · exact ⟨a, List.mem_cons_self a as, by rw [hfa, h1]⟩
        · rcases ih hrest y h2 with ⟨x, hx, hfx⟩
          exact ⟨x, List.mem_cons_of_mem a hx, hfx⟩

/-- `mapExcept` succeeds when every element does. -/
theorem mapExcept_ok_total {α β ε : Type} {f : α → Except ε β} {xs : List α}
    (h : ∀ x ∈ xs, ∃ y, f x = .ok y) : ∃ ys, mapExcept f xs = .ok ys := by
  induction xs with
  | nil => exact ⟨[], rfl⟩
  | cons a as ih =>
    rcases h a (List.mem_cons_self a as) with ⟨b, hb⟩
    rcases ih (fun x hx => h x (List.mem_cons_of_mem a hx)) with ⟨bs, hbs⟩
    exact ⟨b :: bs, by simp [mapExcept, hb, hbs]⟩

/-- The FULLY_VERIFIED condition of the batch-level status. -/
theorem verificationStatus_fully (stages : List VerifiedStage) :
    verificationStatus stages = "FULLY_VERIFIED"
      ↔ stages ≠ [] ∧ ∀ s ∈ stages, s.verified = true := by
  cases hA : stages.all (fun s => s.verified) with
  | false =>
    have hnall : ¬ ∀ s ∈ stages, s.verified = true := by
      rw [← List.all_eq_true]
      simp [hA]
    cases hY : stages.any (fun s => s.verified) with
    | false => simp [verificationStatus, hA, hY, hnall]
    | true => simp [verificationStatus, hA, hY, hnall]
  | true =>
    have hall : ∀ s ∈ stages, s.verified = true := by
      rw [← List.all_eq_true]
      exact hA
    cases stages with
    | nil => simp [verificationStatus]
    | cons a as =>
      simp [verificationStatus, hA, hall]
      intro x hx
      exact hall x (List.mem_cons_of_mem a hx)

/-- The PARTIALLY_VERIFIED condition of the batch-level status. -/
theorem verificationStatus_partVerified (stages : List VerifiedStage) :
    verificationStatus stages = "PARTIALLY_VERIFIED"
      ↔ (∃ s ∈ stages, s.verified = true) ∧ ¬ ∀ s ∈ stages, s.verified = true := by
  cases hA : stages.all (fun s => s.verified) with
  | false =>
    have hnall : ¬ ∀ s ∈ stages, s.verified = true := by
      rw [← List.all_eq_true]
      simp [hA]
    cases hY : stages.any (fun s => s.verified) with
    | false =>
      have hnex : ¬ ∃ s ∈ stages, s.verified = true := by
        rw [← List.any_eq_true]
        simp [hY]
      simp [verificationStatus, hA, hY, hnex]
    | true =>
      have hex : ∃ s ∈ stages, s.verified = true := by
        rw [← List.any_eq_true]
        exact hY
      simp [verificationStatus, hA, hY, hex, hnall]
  | true =>
    have hall : ∀ s ∈ stages, s.verified = true := by
      rw [← List.all_eq_true]
      exact hA
    cases stages with
    | nil => simp [verificationStatus]
    | cons a as =>
      simp [verificationStatus, hA, hall]
      intro x hx
      exact hall x (List.mem_cons_of_mem a hx)

/-- The NOT_VERIFIED condition of the batch-level status. -/
theorem verificationStatus_not (stages : List VerifiedStage) :
    verificationStatus stages = "NOT_VERIFIED"
      ↔ ¬(stages ≠ [] ∧ ∀ s ∈ stages, s.verified = true)
        ∧ ¬((∃ s ∈ stages, s.verified = true) ∧ ¬ ∀ s ∈ stages, s.verified = true) := by
  cases hA : stages.all (fun s => s.verified) with
  | false =>
    have hnall : ¬ ∀ s ∈ stages, s.verified = true := by
      rw [← List.all_eq_true]
      simp [hA]
    cases hY : stages.any (fun s => s.verified) with
    | false =>
      have hnex : ¬ ∃ s ∈ stages, s.verified = true := by
        rw [← List.any_eq_true]
        simp [hY]
      simp [verificationStatus, hA, hY, hnex, hnall]
    | true =>
      have hex : ∃ s ∈ stages, s.verified = true := by
        rw [← List.any_eq_true]
        exact hY
      simp [verificationStatus, hA, hY, hex, hnall]
  | true =>
    have hall : ∀ s ∈ stages, s.verified = true := by
      rw [← List.all_eq_true]
      exact hA
    cases stages with
    | nil => simp [verificationStatus]
    | cons a as => simp [verificationStatus, hA, hall]

/-- C1: in GetBatchStages, a StageEvent whose stored hash differs from the
hash recomputed over its stored metadata is reported with
`data_integrity = false`, `on_chain_verified = false` and `verified = false`,
and the result does not depend on the ledger stage list at all: the ledger is
searched only when the data-integrity check passes. -/
theorem integrity_failure_short_circuits
    (l : List OnChainStage) (s : SupabaseStage) (v : VerifiedStage)
    (hok : processStage l s = .ok v)
    (hbad : createBatchHash s.event_data ≠ .ok s.event_hash) :
    v.data_integrity = false ∧ v.on_chain_verified = false ∧ v.verified = false
      ∧ ∀ l2 : List OnChainStage, processStage l2 s = processStage l s := by
  cases hcb : createBatchHash s.event_data with
  | error e => simp [processStage, hcb] at hok
  | ok h =>
    cases hbeq : (h == s.event_hash) with
    | true =>
      exact absurd (by rw [hcb, beq_iff_eq.mp hbeq]) hbad
    | false =>
      have hinv := processStage_invalid l s h hcb hbeq
      rw [hinv] at hok
      injection hok with hv
      subst hv
      refine ⟨rfl, rfl, rfl, ?_⟩
      intro l2
      rw [hinv, processStage_invalid l2 s h hcb hbeq]

/-- C1 witness: a tampered row is processed identically whether the ledger
list holds a seemingly matching entry or is empty. -/
theorem integrity_failure_short_circuits_witness :
    processStage [chainA] tamperedRow = processStage [] tamperedRow := by
  have h := integrity_failure_short_circuits [] tamperedRow
    ⟨0, .obj [], "t0", false, false, false, none⟩ (by rfl)
    (by
      intro hx
      rw [show createBatchHash tamperedRow.event_data = Except.ok emptyObjHash from rfl] at hx
      simp [emptyObjHash, tamperedRow] at hx)
  exact h.2.2.2 [chainA]

/-- C2: the batch-level verification status is FULLY_VERIFIED exactly when
the stage list is non-empty and every stage is verified, PARTIALLY_VERIFIED
exactly when at least one but not all stages are verified, NOT_VERIFIED
otherwise; and GetBatchStages on a batch with zero stored stages returns the
empty stage list with status NOT_VERIFIED. -/
theorem summary_status_partition (stages : List VerifiedStage)
    (fbid : String) (ledgerRes : Except String (List OnChainStage))
    (hfb : fbid ≠ "") :
    (verificationStatus stages = "FULLY_VERIFIED"
       ↔ stages ≠ [] ∧ ∀ s ∈ stages, s.verified = true)
  ∧ (verificationStatus stages = "PARTIALLY_VERIFIED"
       ↔ (∃ s ∈ stages, s.verified = true) ∧ ¬ ∀ s ∈ stages, s.verified = true)
  ∧ (verificationStatus stages = "NOT_VERIFIED"
       ↔ ¬(stages ≠ [] ∧ ∀ s ∈ stages, s.verified = true)
         ∧ ¬((∃ s ∈ stages, s.verified = true) ∧ ¬ ∀ s ∈ stages, s.verified = true))
  ∧ getBatchStagesRoute fbid (.ok []) ledgerRes = .ok fbid [] ⟨0, 0, "NOT_VERIFIED"⟩ := by
  refine ⟨verificationStatus_fully stages, verificationStatus_partVerified stages,
          verificationStatus_not stages, ?_⟩
  cases ledgerRes with
  | ok l => simp [getBatchStagesRoute, hfb, mapExcept, verificationStatus]
  | error e => simp [getBatchStagesRoute, hfb, mapExcept, verificationStatus]

/-- C2 witness: the zero-stage batch response, concretely. -/
theorem summary_status_partition_witness :
    getBatchStagesRoute "1" (.ok []) (.ok []) = .ok "1" [] ⟨0, 0, "NOT_VERIFIED"⟩ :=
  (summary_status_partition [] "1" (.ok []) (by simp)).2.2.2

/-- C3: when the ledger fetch fails, GetBatchStages behaves exactly as with
an empty ledger list, still answers 200 with the stage details and summary,
and every returned stage has `on_chain_verified = false` and
`verified = false`. -/
theorem ledger_failure_degrades_gracefully
    (fbid : String) (rows : List SupabaseStage) (e : String)
    (hfb : fbid ≠ "")
    (hgood : ∀ r ∈ rows, stringifyVal r.event_data ≠ none) :
    getBatchStagesRoute fbid (.ok rows) (.error e)
      = getBatchStagesRoute fbid (.ok rows) (.ok [])
  ∧ ∃ stages summ,
      getBatchStagesRoute fbid (.ok rows) (.error e) = .ok fbid stages summ
    ∧ ∀ v ∈ stages, v.on_chain_verified = false ∧ v.verified = false := by
  have heq : getBatchStagesRoute fbid (.ok rows) (.error e)
      = getBatchStagesRoute fbid (.ok rows) (.ok []) := by
    simp [getBatchStagesRoute]
  refine ⟨heq, ?_⟩
  rcases mapExcept_ok_total
      (fun r hr => processStage_ok_of_serializable [] r (hgood r hr)) with ⟨stages, hstages⟩
  refine ⟨stages,
    ⟨stages.length, (stages.filter (fun st => st.verified)).length, verificationStatus stages⟩,
    ?_, ?_⟩
  · simp [getBatchStagesRoute, hfb, hstages]
  · intro v hv
    rcases mapExcept_ok_mem hstages v hv with ⟨r, hr, hpr⟩
    exact processStage_nil_onchain r v hpr

/-- C3 witness: a failing ledger fetch yields the same response as an empty
ledger list for a concrete one-row batch. -/
theorem ledger_failure_degrades_gracefully_witness :
    getBatchStagesRoute "1" (.ok [goodRow]) (.error "chain unreachable")
      = getBatchStagesRoute "1" (.ok [goodRow]) (.ok []) :=
  (ledger_failure_degrades_gracefully "1" [goodRow] "chain unreachable" (by simp)
    (by
      intro r hr
      rw [List.mem_singleton] at hr
      subst hr
      rw [show stringifyVal goodRow.event_data = some "\x7b\x7d" from rfl]
      simp)).1

/-- C4 counterexample: the universal 400-and-no-insert claim fails on the
program. A `stage_type` of `["QualityTest"]` is not a member of the fixed
enumeration, yet JavaScript property-key coercion turns it into the valid key
`"QualityTest"`, so the request inserts a row with event type 1 and answers
201 — not 400; and `"toString"` passes validation through the prototype
chain. -/
theorem stage_type_coercion_defeats_validation :
    event_stages (.arr [.str "QualityTest"]) = some (.num 1)
  ∧ event_stages (.str "toString") = some (.protoFn "toString")
  ∧ addStageEventRoute (.str "42") (.arr [.str "QualityTest"]) (.obj []) (.ok ())
        (.ok ⟨"0x", "0"⟩)
      = [.storeInsert (insertedRow (.str "42") (.num 1) (.obj []) emptyObjHash),
         .respond 201 (successBody (insertedRow (.str "42") (.num 1) (.obj []) emptyObjHash)
           emptyObjHash),
         .ledgerStage (.str "42") (.num 1) emptyObjHash]
  ∧ addStageEventRoute (.str "42") (.arr [.str "QualityTest"]) (.obj []) (.ok ())
        (.ok ⟨"0x", "0"⟩)
      ≠ [.respond 400 (.obj [("error", .str "Invalid stage type")])] := by
  refine ⟨rfl, rfl, rfl, ?_⟩
  intro h
  rw [show addStageEventRoute (.str "42") (.arr [.str "QualityTest"]) (.obj []) (.ok ())
        (.ok ⟨"0x", "0"⟩)
      = .storeInsert (insertedRow (.str "42") (.num 1) (.obj []) emptyObjHash)
        :: [.respond 201 (successBody (insertedRow (.str "42") (.num 1) (.obj []) emptyObjHash)
             emptyObjHash),
            .ledgerStage (.str "42") (.num 1) emptyObjHash] from rfl,
      List.cons.injEq] at h
  exact Effect.noConfusion h.1

/-- C4 (amended): RecordStage answers 400 Invalid stage type and performs no
store insert exactly for requests whose `stage_type` string-coerces to a
property key that is neither one of the three enumeration keys nor an
inherited `Object.prototype` member; a merely non-member `stage_type` can
still pass validation through key coercion or the prototype chain. -/
theorem invalid_stage_type_rejected
    (formatted_batch_id stage_type metadata : JsVal)
    (insertRes : Except String Unit) (ledgerRes : Except String TxResult)
    (hbad : event_stages stage_type = none) :
    addStageEventRoute formatted_batch_id stage_type metadata insertRes ledgerRes
      = [.respond 400 (.obj [("error", .str "Invalid stage type")])]
  ∧ (∀ eff ∈ addStageEventRoute formatted_batch_id stage_type metadata insertRes ledgerRes,
      isStoreInsert eff = false)
  ∧ (event_stages stage_type = none ↔
      jsToPropertyKey stage_type
          ∉ (["CollectionEvent", "QualityTest", "ProcessingStep"] : List String)
      ∧ jsToPropertyKey stage_type ∉ objectProtoProps) := by
  have h1 : addStageEventRoute formatted_batch_id stage_type metadata insertRes ledgerRes
      = [.respond 400 (.obj [("error", .str "Invalid stage type")])] := by
    simp [addStageEventRoute, hbad]
  refine ⟨h1, ?_, ?_⟩
  · intro eff heff
    rw [h1, List.mem_singleton] at heff
    subst heff
    rfl
  · simp only [event_stages]
    split_ifs with h1 h2 h3 h4 <;> simp_all

/-- C4 witness: a request with the stage type missing entirely (the key
coerces to the string undefined, found nowhere). -/
theorem invalid_stage_type_rejected_witness :
    addStageEventRoute (.str "1") .undefined .undefined (.ok ()) (.ok ⟨"0x", "0"⟩)
      = [.respond 400 (.obj [("error", .str "Invalid stage type")])] :=
  (invalid_stage_type_rejected (.str "1") .undefined .undefined (.ok ()) (.ok ⟨"0x", "0"⟩) rfl).1

/-- C5: once the store insert succeeds, the trace starts with the insert and
the 201 response carrying the inserted record and hash, before any ledger
attempt; the caller-visible response is the same 201 whatever the ledger
outcome; and on ledger failure no on-chain stage is appended while the
inserted row and the logged error remain in the trace. -/
theorem ledger_mirror_best_effort
    (formatted_batch_id stage_type metadata : JsVal) (etype : PropValue)
    (batchHash : String) (ledgerRes : Except String TxResult)
    (hty : event_stages stage_type = some etype)
    (hfb : jsTruthy formatted_batch_id = true)
    (hh : createBatchHash metadata = .ok batchHash) :
    (∃ rest, addStageEventRoute formatted_batch_id stage_type metadata (.ok ()) ledgerRes
        = .storeInsert (insertedRow formatted_batch_id etype metadata batchHash)
          :: .respond 201 (successBody (insertedRow formatted_batch_id etype metadata batchHash) batchHash)
          :: rest)
  ∧ callerResponse (addStageEventRoute formatted_batch_id stage_type metadata (.ok ()) ledgerRes)
      = some (.respond 201 (successBody (insertedRow formatted_batch_id etype metadata batchHash) batchHash))
  ∧ ∀ msg, ledgerRes = .error msg →
      (∀ eff ∈ addStageEventRoute formatted_batch_id stage_type metadata (.ok ()) ledgerRes,
          isLedgerStage eff = false)
    ∧ Effect.storeInsert (insertedRow formatted_batch_id etype metadata batchHash)
        ∈ addStageEventRoute formatted_batch_id stage_type metadata (.ok ()) ledgerRes
    ∧ Effect.logError msg
        ∈ addStageEventRoute formatted_batch_id stage_type metadata (.ok ()) ledgerRes := by
  have hroute : addStageEventRoute formatted_batch_id stage_type metadata (.ok ()) ledgerRes
      = .storeInsert (insertedRow formatted_batch_id etype metadata batchHash)
        :: .respond 201 (successBody (insertedRow formatted_batch_id etype metadata batchHash) batchHash)
        :: (match ledgerRes with
            | .ok _ => [.ledgerStage formatted_batch_id etype batchHash]
            | .error msg => [.logError msg, .respond 500 (.obj [("error", .str msg)])]) := by
    simp [addStageEventRoute, hty, hfb, hh]
  refine ⟨⟨_, hroute⟩, ?_, ?_⟩
  · rw [hroute]
    simp [callerResponse, List.find?, isRespondEffect]
  · intro msg hmsg
    subst hmsg
    rw [hroute]
    refine ⟨?_, by simp, by simp⟩
    intro eff heff
    simp at heff
    rcases heff with h | h | h | h <;> subst h <;> rfl

/-- C5 witness: a concrete recording whose ledger mirror fails still shows
the caller the 201 with the inserted record and hash. -/
theorem ledger_mirror_best_effort_witness :
    callerResponse (addStageEventRoute (.str "7-X") (.str "QualityTest")
        (.obj [("moisture", .num 12)]) (.ok ()) (.error "execution reverted"))
      = some (.respond 201 (successBody
          (insertedRow (.str "7-X") (.num 1) (.obj [("moisture", .num 12)]) moistureHash)
          moistureHash)) :=
  (ledger_mirror_best_effort (.str "7-X") (.str "QualityTest")
    (.obj [("moisture", .num 12)]) (.num 1) moistureHash (.error "execution reverted")
    rfl rfl rfl).2.1

/-- C6: the hash utility returns the SHA-256 hex digest of the metadata's
JSON serialization, two values with the same serialization hash alike, and
the moisture-12 object hashes to the externally checked digest. -/
theorem createBatchHash_sha256_of_json (m : JsVal) (s : String)
    (hs : stringifyVal m = some s) :
    createBatchHash m = .ok (sha256Hex s)
  ∧ (∀ m2, stringifyVal m2 = stringifyVal m → createBatchHash m2 = createBatchHash m)
  ∧ createBatchHash (.obj [("moisture", .num 12)])
      = .ok "d72b28067d442c4176c85c9940a52c2ee44893075bfb7a31f147e829783cbe4c" := by
  refine ⟨by simp [createBatchHash, hs], ?_, by rfl⟩
  intro m2 h2
  simp [createBatchHash, h2]

/-- C6 witness: the moisture-12 object's hash is the digest of its
serialization. -/
theorem createBatchHash_sha256_of_json_witness :
    createBatchHash (.obj [("moisture", .num 12)])
      = .ok (sha256Hex "\x7b\x22moisture\x22:12\x7d") :=
  (createBatchHash_sha256_of_json (.obj [("moisture", .num 12)])
    "\x7b\x22moisture\x22:12\x7d" rfl).1

/-- C7 counterexample: `getBatchSummary` hands a ledger-native big integer
(`stageType`) to its consumers unconverted, so not every big integer leaves
the ledger-client layer as a decimal string. -/
theorem getBatchSummary_bigint_escapes :
    (getBatchSummary rawSummaryEx).stages
      = [⟨.bigint 1, .str "1700000000", .str "abc123"⟩]
  ∧ EthVal.isString (.bigint 1) = false :=
  ⟨rfl, rfl⟩

/-- C7 (amended): `getBatchSummary` converts the stage count and each stage
timestamp to decimal strings, and passes `metadataHash` through as a string,
but returns each stage's `stageType` as the unconverted big integer. -/
theorem getBatchSummary_string_conversion (result : RawSummary) :
    (getBatchSummary result).sku.isString = true
  ∧ (getBatchSummary result).stageCount = .str (toString result.stageCount)
  ∧ ∀ st ∈ (getBatchSummary result).stages,
      st.timestamp.isString = true ∧ st.metadataHash.isString = true
      ∧ st.stageType.isString = false := by
  refine ⟨rfl, rfl, ?_⟩
  intro st hst
  simp only [getBatchSummary, List.mem_map] at hst
  rcases hst with ⟨r, hr, hmap⟩
  subst hmap
  exact ⟨rfl, rfl, rfl⟩

/-- C7 witness: the conversions on a concrete contract result. -/
theorem getBatchSummary_string_conversion_witness :
    (getBatchSummary rawSummaryEx).stageCount = .str (toString rawSummaryEx.stageCount)
  ∧ (⟨.bigint 1, .str "1700000000", .str "abc123"⟩ : SummaryStage).timestamp.isString = true :=
  ⟨(getBatchSummary_string_conversion rawSummaryEx).2.1,
   ((getBatchSummary_string_conversion rawSummaryEx).2.2
      ⟨.bigint 1, .str "1700000000", .str "abc123"⟩
      (by
        rw [show (getBatchSummary rawSummaryEx).stages
            = [⟨.bigint 1, .str "1700000000", .str "abc123"⟩] from rfl]
        exact List.mem_singleton.mpr rfl)).1⟩

/-- C8: a RecordStage request with a valid batch id and stage type but the
metadata field omitted does not answer 201: `JSON.stringify(undefined)` is
`undefined`, `hash.update(undefined)` throws, and the catch block answers
500 with the TypeError message, inserting no row. -/
theorem omitted_metadata_causes_500 :
    addStageEventRoute (.str "42-ABC") (.str "CollectionEvent") .undefined (.ok ())
        (.ok ⟨"0xabc", "0"⟩)
      = [.respond 500 (.obj [("error", .str updateTypeErrorMsg)])]
  ∧ (addStageEventRoute (.str "42-ABC") (.str "CollectionEvent") .undefined (.ok ())
        (.ok ⟨"0xabc", "0"⟩)).filter isStoreInsert = [] :=
  ⟨rfl, rfl⟩

/-- C10: for a data-valid StageEvent the on-chain comparison uses the first
ledger stage of the same stage kind — matching by kind alone — so two events
of the same kind are compared against that same first entry, and an event
whose true ledger record is not first of its kind is left unverified. -/
theorem onchain_match_uses_first_of_kind
    (l : List OnChainStage) (s : SupabaseStage) (v : VerifiedStage)
    (hok : processStage l s = .ok v)
    (hvalid : createBatchHash s.event_data = .ok s.event_hash) :
    v.on_chain_data
      = (l.find? (fun st => st.stageType == s.event_type)).map toSafeOnChainStage
  ∧ v.on_chain_verified
      = (match l.find? (fun st => st.stageType == s.event_type) with
         | some st => st.metadataHash == s.event_hash
         | none => false)
  ∧ ∀ s2 v2, processStage l s2 = .ok v2 →
      createBatchHash s2.event_data = .ok s2.event_hash →
      s2.event_type = s.event_type → v2.on_chain_data = v.on_chain_data := by
  rw [processStage_valid l s hvalid] at hok
  injection hok with hv
  subst hv
  refine ⟨rfl, ?_, ?_⟩
  · cases hfind : l.find? (fun st => st.stageType == s.event_type) with
    | none => simp [hfind]
    | some st => simp [hfind, toSafeOnChainStage]
  · intro s2 v2 hok2 hval2 hty
    rw [processStage_valid l s2 hval2] at hok2
    injection hok2 with hv2
    subst hv2
    show (l.find? (fun st => st.stageType == s2.event_type)).map toSafeOnChainStage
      = (l.find? (fun st => st.stageType == s.event_type)).map toSafeOnChainStage
    rw [hty]

/-- C10 witness: a valid row whose matching ledger record is second of its
kind is compared with the first entry and reported unverified. -/
theorem onchain_match_uses_first_of_kind_witness :
    firstOfKindDetail.on_chain_data = some (toSafeOnChainStage chainFirst)
  ∧ firstOfKindDetail.on_chain_verified = false := by
  have h := onchain_match_uses_first_of_kind [chainFirst, chainSecond] goodRow
    firstOfKindDetail rfl rfl
  exact ⟨h.1.trans (by rfl), h.2.1.trans (by rfl)⟩
